import Mathlib

/-!
BuildingLens — verification of the identification and ranking pipeline.

Shallow embedding of the BuildingLens server core:

* `scoring.service.ts` — confidence scoring (`calculateConfidenceScore`),
* `bearing.service.ts` — bearing / angular-difference geometry,
* `cache.service.ts`  — building-cache and result-cache operations,
* `geocoding.service.ts` — reverse geocoding with provider fallback,
* `database.service.ts` (identify part) — the `identifyBuilding` orchestrator.

JavaScript numbers are modelled as real numbers (`ℝ`); `Math.round x` is
`⌊x + 1/2⌋`; `Math.exp` is `Real.exp`.  External effects (Redis, PostgreSQL,
HTTP providers) are modelled by an environment record holding the outcome of
each call (`Except String _`), and the orchestrator is a pure function of
that environment which also returns the list of external calls it performed.
-/

namespace BuildingLens

/-- Candidate data source (the `source` union type in `services.types.ts`). -/
inductive Source where
  | google_places
  | google_geocoding
  | nominatim
  | cache
deriving DecidableEq

/-- Embeds `ScoringFactors` from `services.types.ts`.  `bearingDiff` and `hasRating`
are optional in TypeScript. -/
structure ScoringFactors where
  distance : ℝ
  bearingDiff : Option ℝ
  source : Source
  hasName : Bool
  hasRating : Option Bool

/-- Embeds `SOURCE_WEIGHTS` from `scoring.service.ts`. -/
noncomputable def SOURCE_WEIGHTS : Source → ℝ
  | .google_places => 1.0
  | .google_geocoding => 0.8
  | .nominatim => 0.6
  | .cache => 0.7

/-- Embeds `SCORING_WEIGHTS` from `scoring.service.ts`. -/
structure ScoringWeights where
  distance : ℝ
  bearing : ℝ
  source : ℝ
  metadata : ℝ

noncomputable def SCORING_WEIGHTS : ScoringWeights :=
  { distance := 0.4, bearing := 0.3, source := 0.2, metadata := 0.1 }

/-- Embeds `DISTANCE_PARAMS` from `scoring.service.ts`. -/
structure DistanceParams where
  optimalDistance : ℝ
  decayRate : ℝ

noncomputable def DISTANCE_PARAMS : DistanceParams :=
  { optimalDistance := 10, decayRate := 0.05 }

/-- Embeds `BEARING_PARAMS` from `scoring.service.ts`. -/
structure BearingParams where
  perfectAlignment : ℝ
  maxPenalty : ℝ

noncomputable def BEARING_PARAMS : BearingParams :=
  { perfectAlignment := 15, maxPenalty := 90 }

/-- JavaScript `Math.round`: round half toward positive infinity. -/
noncomputable def jsRound (x : ℝ) : ℝ := (⌊x + 1 / 2⌋ : ℤ)

/-- Embeds `calculateDistanceScore` from `scoring.service.ts`. -/
noncomputable def calculateDistanceScore (distance : ℝ) : ℝ :=
  if distance ≤ DISTANCE_PARAMS.optimalDistance then 1.0
  else
    let excessDistance := distance - DISTANCE_PARAMS.optimalDistance
    let score := Real.exp (-DISTANCE_PARAMS.decayRate * excessDistance)
    max 0 (min 1 score)

/-- Embeds `calculateBearingScore` from `scoring.service.ts`; `none` models the
JavaScript `undefined` argument. -/
noncomputable def calculateBearingScore (bearingDiff : Option ℝ) : ℝ :=
  match bearingDiff with
  | none => 0.5
  | some bd =>
    if bd ≤ BEARING_PARAMS.perfectAlignment then 1.0
    else if BEARING_PARAMS.maxPenalty ≤ bd then 0.0
    else
      let score :=
        1 - (bd - BEARING_PARAMS.perfectAlignment) /
          (BEARING_PARAMS.maxPenalty - BEARING_PARAMS.perfectAlignment)
      max 0 (min 1 score)

/-- Embeds `calculateSourceScore` from `scoring.service.ts`. -/
noncomputable def calculateSourceScore (source : Source) : ℝ :=
  SOURCE_WEIGHTS source

/-- Embeds `calculateMetadataScore` from `scoring.service.ts`.  In JavaScript the
`hasRating` test `if (hasRating)` is true exactly when the optional boolean
is present and `true`. -/
noncomputable def calculateMetadataScore (hasName : Bool) (hasRating : Option Bool) : ℝ :=
  let score : ℝ := 0
  let score := if hasName then score + 0.6 else score
  let score := if hasRating = some true then score + 0.4 else score
  min 1 score

/-- Embeds `calculateConfidenceScore` from `scoring.service.ts`. -/
noncomputable def calculateConfidenceScore (factors : ScoringFactors) : ℝ :=
  let distanceScore := calculateDistanceScore factors.distance
  let bearingScore := calculateBearingScore factors.bearingDiff
  let sourceScore := calculateSourceScore factors.source
  let metadataScore := calculateMetadataScore factors.hasName factors.hasRating
  let rawScore :=
    distanceScore * SCORING_WEIGHTS.distance +
    bearingScore * SCORING_WEIGHTS.bearing +
    sourceScore * SCORING_WEIGHTS.source +
    metadataScore * SCORING_WEIGHTS.metadata
  let percentage := rawScore * 100
  jsRound (percentage * 100) / 100

/-- Component `D` of claim C3 / spec §4.2: `1.0` if `distance ≤ 10`, else
`exp(-0.05*(distance-10))` clamped to `[0,1]`. -/
noncomputable def specD (d : ℝ) : ℝ :=
  if d ≤ 10 then 1.0
  else max 0 (min 1 (Real.exp (-(0.05) * (d - 10))))

/-- Component `B` of claim C3 / spec §4.2: `0.5` when absent, `1.0` below `15°`, `0.0`
above `90°`, else the linear interpolation between those bounds. -/
noncomputable def specB (bd : Option ℝ) : ℝ :=
  match bd with
  | none => 0.5
  | some b =>
    if b ≤ 15 then 1.0
    else if 90 ≤ b then 0.0
    else 1 - (b - 15) / (90 - 15)

/-- Component `S` of claim C3 / spec §4.2: the per-source reliability table. -/
noncomputable def specS : Source → ℝ
  | .google_places => 1.0
  | .google_geocoding => 0.8
  | .nominatim => 0.6
  | .cache => 0.7

/-- Component `M` of claim C3 / spec §4.2: `min(1, 0.6·hasName + 0.4·hasRating)`. -/
noncomputable def specM (hasName : Bool) (hasRating : Option Bool) : ℝ :=
  min 1 ((if hasName then (0.6 : ℝ) else 0) +
    (if hasRating = some true then (0.4 : ℝ) else 0))

/-- Written from the specification text of claim C3 (spec §4.2), for the
refinement comparison with `calculateConfidenceScore`:
`round(100 * (0.4*D + 0.3*B + 0.2*S + 0.1*M), 2 dp)`. -/
noncomputable def confidenceScoreSpec (factors : ScoringFactors) : ℝ :=
  jsRound (100 * (0.4 * specD factors.distance + 0.3 * specB factors.bearingDiff +
    0.2 * specS factors.source +
    0.1 * specM factors.hasName factors.hasRating) * 100) / 100

/-! ## Component bounds for the scoring function -/

theorem calculateDistanceScore_bounds (d : ℝ) :
    0 ≤ calculateDistanceScore d ∧ calculateDistanceScore d ≤ 1 := by
  unfold calculateDistanceScore
  split
  · norm_num
  · constructor
    · exact le_max_left 0 _
    · exact max_le (by norm_num) (min_le_left 1 _)

theorem calculateBearingScore_bounds (bd : Option ℝ) :
    0 ≤ calculateBearingScore bd ∧ calculateBearingScore bd ≤ 1 := by
  unfold calculateBearingScore
  match bd with
  | none => norm_num
  | some b =>
    simp only
    split
    · norm_num
    · split
      · norm_num
      · exact ⟨le_max_left 0 _, max_le (by norm_num) (min_le_left 1 _)⟩

theorem calculateSourceScore_bounds (s : Source) :
    0 ≤ calculateSourceScore s ∧ calculateSourceScore s ≤ 1 := by
  cases s <;> simp [calculateSourceScore, SOURCE_WEIGHTS] <;> norm_num

theorem calculateMetadataScore_bounds (hasName : Bool) (hasRating : Option Bool) :
    0 ≤ calculateMetadataScore hasName hasRating ∧
      calculateMetadataScore hasName hasRating ≤ 1 := by
  unfold calculateMetadataScore
  refine ⟨le_min (by norm_num) ?_, min_le_left 1 _⟩
  split <;> split <;> norm_num

/-- The raw weighted sum, before conversion to a percentage. -/
noncomputable def rawConfidence (factors : ScoringFactors) : ℝ :=
  calculateDistanceScore factors.distance * SCORING_WEIGHTS.distance +
  calculateBearingScore factors.bearingDiff * SCORING_WEIGHTS.bearing +
  calculateSourceScore factors.source * SCORING_WEIGHTS.source +
  calculateMetadataScore factors.hasName factors.hasRating * SCORING_WEIGHTS.metadata

theorem calculateConfidenceScore_eq_raw (factors : ScoringFactors) :
    calculateConfidenceScore factors = jsRound (rawConfidence factors * 100 * 100) / 100 := rfl

theorem rawConfidence_bounds (factors : ScoringFactors) :
    0 ≤ rawConfidence factors ∧ rawConfidence factors ≤ 1 := by
  obtain ⟨d0, d1⟩ := calculateDistanceScore_bounds factors.distance
  obtain ⟨b0, b1⟩ := calculateBearingScore_bounds factors.bearingDiff
  obtain ⟨s0, s1⟩ := calculateSourceScore_bounds factors.source
  obtain ⟨m0, m1⟩ := calculateMetadataScore_bounds factors.hasName factors.hasRating
  unfold rawConfidence
  simp only [SCORING_WEIGHTS]
  norm_num
  constructor <;> nlinarith

theorem jsRound_mono {x y : ℝ} (h : x ≤ y) : jsRound x ≤ jsRound y := by
  unfold jsRound
  exact_mod_cast Int.floor_le_floor (by linarith)

theorem jsRound_nonneg {x : ℝ} (h : 0 ≤ x) : 0 ≤ jsRound x := by
  unfold jsRound
  have : (0 : ℤ) ≤ ⌊x + 1 / 2⌋ := Int.le_floor.mpr (by push_cast; linarith)
  exact_mod_cast this

theorem jsRound_le {x c : ℝ} (h : x ≤ c) : jsRound x ≤ c + 1 / 2 := by
  unfold jsRound
  have h1 : (⌊x + 1 / 2⌋ : ℝ) ≤ x + 1 / 2 := Int.floor_le _
  linarith

theorem jsRound_le_int {x : ℝ} {n : ℤ} (h : x ≤ n) : jsRound x ≤ (n : ℝ) := by
  unfold jsRound
  have h1 : ⌊x + 1 / 2⌋ < n + 1 := Int.floor_lt.mpr (by push_cast; linarith)
  exact_mod_cast Int.lt_add_one_iff.mp h1

/-! ## Claim C3: the confidence formula matches the spec formula -/

theorem calculateDistanceScore_eq_specD (d : ℝ) :
    calculateDistanceScore d = specD d := by
  simp only [calculateDistanceScore, specD, DISTANCE_PARAMS]

theorem calculateBearingScore_eq_specB (bd : Option ℝ) :
    calculateBearingScore bd = specB bd := by
  match bd with
  | none => rfl
  | some b =>
    simp only [calculateBearingScore, specB, BEARING_PARAMS]
    split
    · rfl
    · split
      · rfl
      · rename_i h15 h90
        push_neg at h15 h90
        have hq0 : (0 : ℝ) ≤ (b - 15) / (90 - 15) :=
          div_nonneg (by linarith) (by norm_num)
        have hq1 : (b - 15) / (90 - 15) ≤ 1 :=
          (div_le_one (by norm_num)).mpr (by linarith)
        rw [min_eq_right (by linarith), max_eq_right (by linarith)]

theorem calculateSourceScore_eq_specS (s : Source) :
    calculateSourceScore s = specS s := by
  cases s <;> rfl

theorem calculateMetadataScore_eq_specM (hasName : Bool) (hasRating : Option Bool) :
    calculateMetadataScore hasName hasRating = specM hasName hasRating := by
  simp only [calculateMetadataScore, specM]
  cases hasName <;> split <;> norm_num

/-- Claim C3: `calculateConfidenceScore` computes exactly
`round(100 * (0.4*D + 0.3*B + 0.2*S + 0.1*M), 2 dp)` with the component
formulas of the spec, and the result always lies in `[0, 100]`.
(The function is a pure function of its argument, so determinism is
built into the model.) -/
theorem confidence_score_matches_spec (factors : ScoringFactors) :
    calculateConfidenceScore factors = confidenceScoreSpec factors ∧
    0 ≤ calculateConfidenceScore factors ∧
    calculateConfidenceScore factors ≤ 100 := by
  have hraw : calculateConfidenceScore factors = jsRound (rawConfidence factors * 100 * 100) / 100 :=
    calculateConfidenceScore_eq_raw factors
  obtain ⟨h0, h1⟩ := rawConfidence_bounds factors
  refine ⟨?_, ?_, ?_⟩
  · rw [hraw]
    unfold confidenceScoreSpec
    have harg : rawConfidence factors * 100 * 100 =
        100 * (0.4 * specD factors.distance + 0.3 * specB factors.bearingDiff +
          0.2 * specS factors.source +
          0.1 * specM factors.hasName factors.hasRating) * 100 := by
      unfold rawConfidence
      rw [calculateDistanceScore_eq_specD, calculateBearingScore_eq_specB,
        calculateSourceScore_eq_specS, calculateMetadataScore_eq_specM]
      simp only [SCORING_WEIGHTS]
      ring
    rw [harg]
  · rw [hraw]
    have := jsRound_nonneg (x := rawConfidence factors * 100 * 100) (by nlinarith)
    linarith
  · rw [hraw]
    have : jsRound (rawConfidence factors * 100 * 100) ≤ ((10000 : ℤ) : ℝ) :=
      jsRound_le_int (by push_cast; nlinarith)
    push_cast at this
    linarith

/-! ## Claim C8: monotonicity in distance and bearing difference -/

theorem calculateDistanceScore_antitone {d₁ d₂ : ℝ} (h : d₁ ≤ d₂) :
    calculateDistanceScore d₂ ≤ calculateDistanceScore d₁ := by
  simp only [calculateDistanceScore, DISTANCE_PARAMS]
  split
  · rename_i h2
    rw [if_pos (by linarith)]
  · rename_i h2
    split
    · exact le_trans (max_le (by norm_num) (min_le_left 1 _)) (by norm_num)
    · refine max_le_max le_rfl (min_le_min le_rfl ?_)
      exact Real.exp_le_exp.mpr (by nlinarith)

theorem calculateBearingScore_antitone {b₁ b₂ : ℝ} (h : b₁ ≤ b₂) :
    calculateBearingScore (some b₂) ≤ calculateBearingScore (some b₁) := by
  simp only [calculateBearingScore, BEARING_PARAMS]
  by_cases h1 : b₁ ≤ 15
  · rw [if_pos h1]
    split
    · norm_num
    · split
      · norm_num
      · exact le_trans (max_le (by norm_num) (min_le_left 1 _)) (by norm_num)
  · rw [if_neg h1]
    push_neg at h1
    rw [if_neg (by push_neg; linarith)]
    by_cases h9 : (90 : ℝ) ≤ b₁
    · rw [if_pos h9, if_pos (by linarith)]
    · rw [if_neg h9]
      push_neg at h9
      split
      · exact le_trans (by norm_num) (le_max_left 0 _)
      · have hdiv : (b₁ - 15) / (90 - 15) ≤ (b₂ - 15) / (90 - 15) :=
          (div_le_div_iff_of_pos_right (by norm_num)).mpr (by linarith)
        exact max_le_max le_rfl (min_le_min le_rfl (by linarith))

theorem confidenceScore_le_of_raw_le {f g : ScoringFactors}
    (h : rawConfidence f ≤ rawConfidence g) :
    calculateConfidenceScore f ≤ calculateConfidenceScore g := by
  rw [calculateConfidenceScore_eq_raw, calculateConfidenceScore_eq_raw]
  have := jsRound_mono (x := rawConfidence f * 100 * 100)
    (y := rawConfidence g * 100 * 100) (by nlinarith)
  linarith

/-- Claim C8: holding the other factors fixed, `calculateConfidenceScore` is
monotonically non-increasing in distance (on `distance ≥ 0`), and
monotonically non-increasing in `bearingDiff` over present values in
`[0, 180]`. -/
theorem confidence_score_monotone :
    (∀ (bd : Option ℝ) (s : Source) (hn : Bool) (hr : Option Bool) (d₁ d₂ : ℝ),
      0 ≤ d₁ → d₁ ≤ d₂ →
      calculateConfidenceScore ⟨d₂, bd, s, hn, hr⟩ ≤
        calculateConfidenceScore ⟨d₁, bd, s, hn, hr⟩) ∧
    (∀ (d : ℝ) (s : Source) (hn : Bool) (hr : Option Bool) (b₁ b₂ : ℝ),
      0 ≤ b₁ → b₁ ≤ b₂ → b₂ ≤ 180 →
      calculateConfidenceScore ⟨d, some b₂, s, hn, hr⟩ ≤
        calculateConfidenceScore ⟨d, some b₁, s, hn, hr⟩) := by
  constructor
  · intro bd s hn hr d₁ d₂ _ hle
    refine confidenceScore_le_of_raw_le ?_
    have hD := calculateDistanceScore_antitone hle
    unfold rawConfidence
    simp only [SCORING_WEIGHTS]
    nlinarith
  · intro d s hn hr b₁ b₂ _ hle _
    refine confidenceScore_le_of_raw_le ?_
    have hB := calculateBearingScore_antitone hle
    unfold rawConfidence
    simp only [SCORING_WEIGHTS]
    nlinarith

theorem confidence_score_monotone_witness :
    calculateConfidenceScore ⟨1, none, .google_places, true, none⟩ ≤
      calculateConfidenceScore ⟨0, none, .google_places, true, none⟩ ∧
    calculateConfidenceScore ⟨0, some 180, .cache, false, some false⟩ ≤
      calculateConfidenceScore ⟨0, some 0, .cache, false, some false⟩ :=
  ⟨confidence_score_monotone.1 none .google_places true none 0 1 le_rfl zero_le_one,
   confidence_score_monotone.2 0 .cache false (some false) 0 180 le_rfl
     (by norm_num) le_rfl⟩

/-! ## Claim C10: without a heading the score never exceeds 85 -/

/-- Claim C10: whenever `bearingDiff` is absent the bearing component is the
neutral `0.5`, so the score is at most `85`; the bound is attained by a
`google_places` candidate within 10 m that has a name and a rating. -/
theorem confidence_score_no_heading_bound :
    (∀ f : ScoringFactors, f.bearingDiff = none → calculateConfidenceScore f ≤ 85) ∧
    calculateConfidenceScore ⟨5, none, .google_places, true, some true⟩ = 85 := by
  constructor
  · intro f hf
    rw [calculateConfidenceScore_eq_raw]
    have hB : calculateBearingScore f.bearingDiff = 0.5 := by rw [hf]; rfl
    obtain ⟨d0, d1⟩ := calculateDistanceScore_bounds f.distance
    obtain ⟨s0, s1⟩ := calculateSourceScore_bounds f.source
    obtain ⟨m0, m1⟩ := calculateMetadataScore_bounds f.hasName f.hasRating
    have hraw : rawConfidence f ≤ 0.85 := by
      unfold rawConfidence
      rw [hB]
      simp only [SCORING_WEIGHTS]
      nlinarith
    have : jsRound (rawConfidence f * 100 * 100) ≤ ((8500 : ℤ) : ℝ) :=
      jsRound_le_int (by push_cast; nlinarith)
    push_cast at this
    linarith
  · rw [calculateConfidenceScore_eq_raw]
    have hraw : rawConfidence ⟨5, none, .google_places, true, some true⟩ = 0.85 := by
      unfold rawConfidence
      have hD : calculateDistanceScore 5 = 1.0 := by
        rw [calculateDistanceScore, if_pos (by norm_num [DISTANCE_PARAMS])]
      have hM : calculateMetadataScore true (some true) = 1 := by
        unfold calculateMetadataScore
        norm_num
      simp only [hD, hM]
      show (1.0 : ℝ) * SCORING_WEIGHTS.distance + calculateBearingScore none * SCORING_WEIGHTS.bearing +
        calculateSourceScore Source.google_places * SCORING_WEIGHTS.source +
        1 * SCORING_WEIGHTS.metadata = 0.85
      rw [show calculateBearingScore none = 0.5 from rfl,
        show calculateSourceScore Source.google_places = 1.0 from rfl]
      simp only [SCORING_WEIGHTS]
      norm_num
    rw [hraw]
    have h85 : jsRound (0.85 * 100 * 100) = ((8500 : ℤ) : ℝ) := by
      unfold jsRound
      norm_num
    rw [h85]
    norm_num

theorem confidence_score_no_heading_bound_witness :
    calculateConfidenceScore ⟨5, none, .google_places, true, some true⟩ ≤ 85 :=
  confidence_score_no_heading_bound.1 ⟨5, none, .google_places, true, some true⟩ rfl

/-! ## Bearing service (`bearing.service.ts`) -/

/-- Embeds `Coordinates` from `services.types.ts`. -/
structure Coordinates where
  latitude : ℝ
  longitude : ℝ

/-- Embeds `EARTH_RADIUS_METERS` from `bearing.service.ts`. -/
noncomputable def EARTH_RADIUS_METERS : ℝ := 6371000

noncomputable def toRadians (degrees : ℝ) : ℝ := degrees * (Real.pi / 180)

noncomputable def toDegrees (radians : ℝ) : ℝ := radians * (180 / Real.pi)

/-- JavaScript number truncation toward zero (used by the `%` operator). -/
noncomputable def jsTrunc (x : ℝ) : ℤ := if 0 ≤ x then ⌊x⌋ else -⌊-x⌋

/-- The JavaScript remainder operator `a % n` on numbers: the remainder has
the sign of the dividend. -/
noncomputable def jsMod (a n : ℝ) : ℝ := a - n * (jsTrunc (a / n) : ℤ)

/-- Embeds `normalizeBearing` from `bearing.service.ts`. -/
noncomputable def normalizeBearing (bearing : ℝ) : ℝ :=
  let normalized := jsMod bearing 360
  if normalized < 0 then normalized + 360 else normalized

/-- JavaScript `Math.atan2` (sign conventions of the real function;
the `±0` distinction of IEEE floats is not modelled). -/
noncomputable def atan2 (y x : ℝ) : ℝ :=
  if 0 < x then Real.arctan (y / x)
  else if x < 0 then
    (if 0 ≤ y then Real.arctan (y / x) + Real.pi else Real.arctan (y / x) - Real.pi)
  else
    (if 0 < y then Real.pi / 2 else if y < 0 then -(Real.pi / 2) else 0)

/-- Embeds `calculateDistance` from `bearing.service.ts` (haversine formula). -/
noncomputable def calculateDistance (src dst : Coordinates) : ℝ :=
  let lat1Rad := toRadians src.latitude
  let lat2Rad := toRadians dst.latitude
  let deltaLat := toRadians (dst.latitude - src.latitude)
  let deltaLon := toRadians (dst.longitude - src.longitude)
  let a :=
    Real.sin (deltaLat / 2) * Real.sin (deltaLat / 2) +
    Real.cos lat1Rad * Real.cos lat2Rad * Real.sin (deltaLon / 2) * Real.sin (deltaLon / 2)
  let c := 2 * atan2 (Real.sqrt a) (Real.sqrt (1 - a))
  EARTH_RADIUS_METERS * c

/-- Embeds `calculateBearing` from `bearing.service.ts`. -/
noncomputable def calculateBearing (src dst : Coordinates) : ℝ :=
  let lat1Rad := toRadians src.latitude
  let lat2Rad := toRadians dst.latitude
  let deltaLon := toRadians (dst.longitude - src.longitude)
  let y := Real.sin deltaLon * Real.cos lat2Rad
  let x :=
    Real.cos lat1Rad * Real.sin lat2Rad -
    Real.sin lat1Rad * Real.cos lat2Rad * Real.cos deltaLon
  let bearingRad := atan2 y x
  let bearingDeg := toDegrees bearingRad
  normalizeBearing bearingDeg

/-- Embeds `calculateBearingDifference` from `bearing.service.ts`. -/
noncomputable def calculateBearingDifference (bearing1 bearing2 : ℝ) : ℝ :=
  let normalized1 := normalizeBearing bearing1
  let normalized2 := normalizeBearing bearing2
  let diff := |normalized1 - normalized2|
  if 180 < diff then 360 - diff else diff

/-- Embeds `BearingCalculation` from `services.types.ts`. -/
structure BearingCalculation where
  distance : ℝ
  bearing : ℝ
  bearingDiff : Option ℝ

/-- Embeds `calculateBearingAndDistance` from `bearing.service.ts`.  The optional
`userHeading` produces the optional `bearingDiff` field. -/
noncomputable def calculateBearingAndDistance
    (src dst : Coordinates) (userHeading : Option ℝ) : BearingCalculation :=
  let distance := calculateDistance src dst
  let bearing := calculateBearing src dst
  { distance := distance, bearing := bearing,
    bearingDiff := userHeading.map (fun h => calculateBearingDifference bearing h) }

/-! ## Claim C9: angular difference range, symmetry, wraparound -/

theorem jsMod_eq_self {b : ℝ} (h0 : 0 ≤ b) (h1 : b < 360) : jsMod b 360 = b := by
  unfold jsMod jsTrunc
  rw [if_pos (by positivity)]
  have : ⌊b / 360⌋ = 0 := by
    rw [Int.floor_eq_zero_iff]
    constructor
    · positivity
    · exact (div_lt_one (by norm_num)).mpr h1
  rw [this]
  norm_num

theorem normalizeBearing_eq_self {b : ℝ} (h0 : 0 ≤ b) (h1 : b < 360) :
    normalizeBearing b = b := by
  unfold normalizeBearing
  rw [jsMod_eq_self h0 h1, if_neg (not_lt.mpr h0)]

/-- Claim C9: for bearings in `[0, 360)` the angular difference lies in
`[0, 180]` and is symmetric, and wraparound is handled:
`calculateBearingDifference 350 10 = 20` and
`calculateBearingDifference 1 359 = 2`. -/
theorem bearing_difference_range_symm_wraparound :
    (∀ x y : ℝ, 0 ≤ x → x < 360 → 0 ≤ y → y < 360 →
      0 ≤ calculateBearingDifference x y ∧
      calculateBearingDifference x y ≤ 180 ∧
      calculateBearingDifference x y = calculateBearingDifference y x) ∧
    calculateBearingDifference 350 10 = 20 ∧
    calculateBearingDifference 1 359 = 2 := by
  refine ⟨?_, ?_, ?_⟩
  · intro x y hx0 hx1 hy0 hy1
    unfold calculateBearingDifference
    rw [normalizeBearing_eq_self hx0 hx1, normalizeBearing_eq_self hy0 hy1]
    dsimp only
    have habs : |x - y| < 360 := abs_sub_lt_iff.mpr ⟨by linarith, by linarith⟩
    refine ⟨?_, ?_, ?_⟩
    · split_ifs with h
      · linarith
      · exact abs_nonneg _
    · split_ifs with h
      · linarith
      · linarith [not_lt.mp h]
    · rw [abs_sub_comm]
  · unfold calculateBearingDifference
    rw [normalizeBearing_eq_self (by norm_num) (by norm_num),
      normalizeBearing_eq_self (by norm_num) (by norm_num)]
    dsimp only
    rw [show |(350 : ℝ) - 10| = 340 by rw [abs_of_nonneg (by norm_num)]; norm_num]
    norm_num
  · unfold calculateBearingDifference
    rw [normalizeBearing_eq_self (by norm_num) (by norm_num),
      normalizeBearing_eq_self (by norm_num) (by norm_num)]
    dsimp only
    rw [show |(1 : ℝ) - 359| = 358 by rw [abs_of_nonpos (by norm_num)]; norm_num]
    norm_num

theorem bearing_difference_witness :
    0 ≤ calculateBearingDifference 20 300 ∧
    calculateBearingDifference 20 300 ≤ 180 ∧
    calculateBearingDifference 20 300 = calculateBearingDifference 300 20 :=
  bearing_difference_range_symm_wraparound.1 20 300
    (by norm_num) (by norm_num) (by norm_num) (by norm_num)

/-! ## Metadata objects

JavaScript metadata bags (`Record<string, unknown>`) are modelled as
insertion-ordered association lists.  `jsSet` is JavaScript property
assignment: it overwrites the value of an existing key in place, otherwise
appends the key.  A spread `{...a, k: v, ...}` is a sequence of `jsSet`s.
`MetaVal.undef` models a property that is present with value `undefined`. -/

inductive MetaVal where
  | undef
  | num (x : ℝ)
  | str (s : String)
  | boolV (b : Bool)
  | strList (l : List String)
  | jsonVal (tag : String)

def Metadata := List (String × MetaVal)

def metaLookup : Metadata → String → Option MetaVal
  | [], _ => none
  | (k1, v1) :: rest, k => if k1 = k then some v1 else metaLookup rest k

def jsSet : Metadata → String → MetaVal → Metadata
  | [], k, v => [(k, v)]
  | (k1, v1) :: rest, k, v =>
    if k1 = k then (k1, v) :: rest else (k1, v1) :: jsSet rest k v

/-- Object spread `{...base, ...ext}`: assign every property of `ext` on top
of `base`, in order. -/
def objAssign (base ext : Metadata) : Metadata :=
  ext.foldl (fun m kv => jsSet m kv.1 kv.2) base

/-- A property counts as defined when it is present with a non-`undefined`
value (the JavaScript test `x !== undefined`). -/
def metaDefined (m : Metadata) (k : String) : Bool :=
  match metaLookup m k with
  | some .undef => false
  | some _ => true
  | none => false

theorem metaLookup_jsSet_self (m : Metadata) (k : String) (v : MetaVal) :
    metaLookup (jsSet m k v) k = some v := by
  induction m with
  | nil => simp [jsSet, metaLookup]
  | cons p rest ih =>
    obtain ⟨k1, v1⟩ := p
    by_cases h : k1 = k
    · simp [jsSet, metaLookup, h]
    · simp [jsSet, metaLookup, h, ih]

theorem metaLookup_jsSet_ne (m : Metadata) {k q : String} (v : MetaVal) (h : q ≠ k) :
    metaLookup (jsSet m k v) q = metaLookup m q := by
  have hk : k ≠ q := Ne.symm h
  induction m with
  | nil => simp [jsSet, metaLookup, hk]
  | cons p rest ih =>
    obtain ⟨k1, v1⟩ := p
    by_cases h1 : k1 = k
    · subst h1
      simp [jsSet, metaLookup, hk]
    · simp [jsSet, metaLookup, h1, ih]

/-! ## Candidate and record types (`services.types.ts`) -/

/-- Embeds `BuildingCandidate` from `services.types.ts`.  Optional TypeScript
fields are `Option`s; an absent metadata bag is the empty list. -/
structure BuildingCandidate where
  id : Option String
  externalId : Option String
  name : Option String
  address : String
  coordinates : Coordinates
  distance : ℝ
  bearing : ℝ
  bearingDiff : Option ℝ
  confidence : ℝ
  source : Source
  metadata : Metadata

/-- Embeds `CachedBuilding` from `services.types.ts`.  The `createdAt`/`updatedAt`
timestamps are set by the database and never read by the pipeline, so they
are omitted from the model. -/
structure CachedBuilding where
  id : String
  externalId : Option String
  source : String
  name : Option String
  address : String
  latitude : ℝ
  longitude : ℝ
  metadata : Metadata
  expiresAt : Option ℝ

/-- Embeds `PlaceResult` from `services.types.ts`. -/
structure PlaceResult where
  placeId : String
  name : String
  address : String
  coordinates : Coordinates
  rating : Option ℝ
  userRatingsTotal : Option ℝ
  types : Option (List String)
  vicinity : Option String
  metadata : Metadata

/-- Embeds `GeocodingResult` from `services.types.ts` (its `source` is always
`google_geocoding` or `nominatim` in the TypeScript union). -/
structure GeocodingResult where
  name : Option String
  address : String
  coordinates : Coordinates
  placeId : Option String
  source : Source
  metadata : Metadata

/-- An optional number written into a JavaScript object property. -/
def optNum : Option ℝ → MetaVal
  | none => .undef
  | some x => .num x

/-- An optional string list written into a JavaScript object property. -/
def optStrList : Option (List String) → MetaVal
  | none => .undef
  | some l => .strList l

def sourceToString : Source → String
  | .google_places => "google_places"
  | .google_geocoding => "google_geocoding"
  | .nominatim => "nominatim"
  | .cache => "cache"

/-! ## Cache service: `saveBuildingToCache` (`cache.service.ts`) -/

/-- The metadata object built by `saveBuildingToCache`:
`{...candidate.metadata, distance, bearing, bearingDiff, confidence}`. -/
def savedMetadata (candidate : BuildingCandidate) : Metadata :=
  jsSet (jsSet (jsSet (jsSet candidate.metadata
    "distance" (.num candidate.distance))
    "bearing" (.num candidate.bearing))
    "bearingDiff" (optNum candidate.bearingDiff))
    "confidence" (.num candidate.confidence)

/-- The TypeScript type of the record
passed to `saveBuildingToDatabase`. -/
structure BuildingData where
  externalId : Option String
  source : String
  name : Option String
  address : String
  latitude : ℝ
  longitude : ℝ
  metadata : Metadata
  expiresAt : Option ℝ

/-- Embeds `saveBuildingToCache` from `cache.service.ts`: the `buildingData` record
it constructs and hands to the database.  `now` is `Date.now()`.  The
database source expression keeps a non-empty `originalSource` metadata
string and otherwise (absent, empty, or non-string, which the TypeScript
cast would misuse) falls back to the `cache` source string. -/
noncomputable def saveBuildingToCacheData
    (candidate : BuildingCandidate) (now ttlSeconds : ℝ) : BuildingData :=
  let expiresAt := now + ttlSeconds * 1000
  let dbSource :=
    if candidate.source = .cache then
      match metaLookup candidate.metadata "originalSource" with
      | some (.str s) => if s = "" then "cache" else s
      | _ => "cache"
    else sourceToString candidate.source
  { externalId := candidate.externalId
    source := dbSource
    name := candidate.name
    address := candidate.address
    latitude := candidate.coordinates.latitude
    longitude := candidate.coordinates.longitude
    metadata := savedMetadata candidate
    expiresAt := some expiresAt }

theorem saveBuildingToCacheData_metadata (candidate : BuildingCandidate)
    (now ttlSeconds : ℝ) :
    (saveBuildingToCacheData candidate now ttlSeconds).metadata =
      savedMetadata candidate := rfl

/-! ## Claim C7: the upsert metadata merge -/

/-- A candidate whose externally-sourced metadata already has a key named
`distance`: the merge in `saveBuildingToCache` overwrites it. -/
def collidingCandidate : BuildingCandidate :=
  { id := none
    externalId := some "p1"
    name := some "Tower"
    address := "1 Main St"
    coordinates := { latitude := 0, longitude := 0 }
    distance := 7
    bearing := 0
    bearingDiff := none
    confidence := 50
    source := .google_places
    metadata := [("distance", .num 999)] }

/-- Claim C7 counterexample: it is not true that every metadata key coming
from the external source keeps its original value after the merge — a key
named `distance` is destructively overwritten by the computed distance. -/
theorem saved_metadata_not_preserving :
    ¬ (∀ (c : BuildingCandidate) (k : String) (v : MetaVal),
        metaLookup c.metadata k = some v →
        metaLookup (savedMetadata c) k = some v) := by
  intro h
  have h2 := h collidingCandidate "distance" (.num 999)
    (by simp [collidingCandidate, metaLookup])
  simp [savedMetadata, collidingCandidate, jsSet, metaLookup, optNum] at h2

/-- Claim C7 amended: `saveBuildingToCache` merges the computed `distance`,
`bearing`, `bearingDiff` and `confidence` into the stored metadata, and every
metadata key *other than those four computed keys* keeps its original value;
an externally-sourced key named like a computed field is overwritten (that is
the only failure of the original claim, per `saved_metadata_not_preserving`). -/
theorem saved_metadata_merge (c : BuildingCandidate) :
    metaLookup (savedMetadata c) "distance" = some (.num c.distance) ∧
    metaLookup (savedMetadata c) "bearing" = some (.num c.bearing) ∧
    metaLookup (savedMetadata c) "bearingDiff" = some (optNum c.bearingDiff) ∧
    metaLookup (savedMetadata c) "confidence" = some (.num c.confidence) ∧
    ∀ k, k ≠ "distance" → k ≠ "bearing" → k ≠ "bearingDiff" → k ≠ "confidence" →
      metaLookup (savedMetadata c) k = metaLookup c.metadata k := by
  unfold savedMetadata
  refine ⟨?_, ?_, ?_, ?_, ?_⟩
  · rw [metaLookup_jsSet_ne _ _ (by decide), metaLookup_jsSet_ne _ _ (by decide),
      metaLookup_jsSet_ne _ _ (by decide), metaLookup_jsSet_self]
  · rw [metaLookup_jsSet_ne _ _ (by decide), metaLookup_jsSet_ne _ _ (by decide),
      metaLookup_jsSet_self]
  · rw [metaLookup_jsSet_ne _ _ (by decide), metaLookup_jsSet_self]
  · rw [metaLookup_jsSet_self]
  · intro k h1 h2 h3 h4
    rw [metaLookup_jsSet_ne _ _ h4, metaLookup_jsSet_ne _ _ h3,
      metaLookup_jsSet_ne _ _ h2, metaLookup_jsSet_ne _ _ h1]

/-- Concrete candidate for the C7 witness, with an externally-sourced
`rating` key that survives the merge. -/
def ratedCandidate : BuildingCandidate :=
  { id := none
    externalId := some "p2"
    name := some "Shop"
    address := "2 Main St"
    coordinates := { latitude := 1, longitude := 2 }
    distance := 25
    bearing := 90
    bearingDiff := some 10
    confidence := 80
    source := .google_places
    metadata := [("rating", .num 4.5)] }

theorem saved_metadata_merge_witness :
    metaLookup (savedMetadata ratedCandidate) "rating" =
      metaLookup ratedCandidate.metadata "rating" :=
  (saved_metadata_merge ratedCandidate).2.2.2.2 "rating"
    (by decide) (by decide) (by decide) (by decide)

/-! ## The identification orchestrator (`identifyBuilding`)

One run of `identifyBuilding` performs each external call at most once, so
the environment records the outcome each call would produce:
`Except.error` models a rejected promise.  The orchestrator is a pure
function of this environment; alongside its result it returns the list of
external calls it actually performed. -/

/-- Outcomes of the external calls available to one `identifyBuilding` run. -/
structure Env where
  /-- `redis.get` + parse for the identify-result key
  (`getCachedIdentifyResults`). -/
  resultCacheGet : Except String (Option (List BuildingCandidate))
  /-- `findBuildingsNearLocation` (PostgreSQL, `database.service.ts`). -/
  dbFindNear : Except String (List CachedBuilding)
  /-- The `findNearbyPlaces` places-adapter call as awaited by the
  orchestrator. -/
  placesCall : Except String (List PlaceResult)
  /-- `redis.get` + parse for the geocoding key (`geocoding.service.ts`). -/
  geoRedisGet : Except String (Option GeocodingResult)
  /-- The Google geocoding provider call (`geocodeWithGoogle` body):
  `.ok none` is a no-result response, `.error` a thrown request. -/
  geoGoogle : Except String (Option GeocodingResult)
  /-- The Nominatim provider call (`geocodeWithNominatim` body). -/
  geoNominatim : Except String (Option GeocodingResult)
  /-- `redis.setex` of the geocoding result. -/
  geoRedisSet : Except String Unit
  /-- `saveBuildingToCache` outcome per candidate (used fire-and-forget). -/
  buildingSave : BuildingCandidate → Except String String
  /-- `redis.setex` of the identify results (`cacheIdentifyResults`). -/
  resultCacheSet : Except String Unit

/-- Embeds `getCachedIdentifyResults` from `cache.service.ts`: any read failure is
caught and becomes a cache miss (`null`). -/
def getCachedIdentifyResults (env : Env) : Option (List BuildingCandidate) :=
  match env.resultCacheGet with
  | .error _ => none
  | .ok o => o

/-- The `CachedBuilding → BuildingCandidate` conversion in `getCachedBuildings`
(`cache.service.ts`). -/
def cachedToCandidate (b : CachedBuilding) : BuildingCandidate :=
  { id := some b.id
    externalId := b.externalId
    name := b.name
    address := b.address
    coordinates := { latitude := b.latitude, longitude := b.longitude }
    distance := 0
    bearing := 0
    bearingDiff := none
    confidence := 0
    source := .cache
    metadata := b.metadata }

/-- Embeds `getCachedBuildings` from `cache.service.ts`: a database failure is
caught and becomes the empty list. -/
def getCachedBuildings (env : Env) : List BuildingCandidate :=
  match env.dbFindNear with
  | .error _ => []
  | .ok bs => bs.map cachedToCandidate

/-- Embeds `geocodeWithGoogle` from `geocoding.service.ts`: a thrown provider call
is caught and becomes `null`. -/
def geocodeWithGoogle (env : Env) : Option GeocodingResult :=
  match env.geoGoogle with
  | .error _ => none
  | .ok o => o

/-- Embeds `geocodeWithNominatim` from `geocoding.service.ts`: a thrown provider
call is caught and becomes `null`. -/
def geocodeWithNominatim (env : Env) : Option GeocodingResult :=
  match env.geoNominatim with
  | .error _ => none
  | .ok o => o

/-- Embeds `reverseGeocode` from `geocoding.service.ts`: cache first, then Google,
then Nominatim; the surrounding try/catch turns any thrown step (cache read,
or the cache write after a successful geocode) into `null`. -/
def reverseGeocode (env : Env) : Option GeocodingResult :=
  match env.geoRedisGet with
  | .error _ => none
  | .ok (some cached) => some cached
  | .ok none =>
    let result :=
      match geocodeWithGoogle env with
      | some r => some r
      | none => geocodeWithNominatim env
    match result with
    | some r =>
      match env.geoRedisSet with
      | .ok _ => some r
      | .error _ => none
    | none => none

/-- Embeds `IdentifyBuildingInput` from `services.types.ts`. -/
structure IdentifyBuildingInput where
  latitude : ℝ
  longitude : ℝ
  heading : Option ℝ
  searchRadius : Option ℝ

/-- Embeds `IdentifyBuildingResult` from `services.types.ts`; the wall-clock
`timestamp` field is not modelled. -/
structure IdentifyBuildingResult where
  candidates : List BuildingCandidate
  searchRadius : ℝ
  searchCenter : Coordinates
  heading : Option ℝ

/-- The config value `env.SEARCH_RADIUS_METERS` (default `100` in `config/env.ts`). -/
noncomputable def SEARCH_RADIUS_METERS : ℝ := 100

/-- The radius expression `input.searchRadius || env.SEARCH_RADIUS_METERS`: JavaScript `||` also
rejects a present but zero radius. -/
noncomputable def effectiveSearchRadius (input : IdentifyBuildingInput) : ℝ :=
  match input.searchRadius with
  | some r => if r = 0 then SEARCH_RADIUS_METERS else r
  | none => SEARCH_RADIUS_METERS

/-- The `metadata` object literal of a places candidate in
`identifyBuilding`:
`{ rating, userRatingsTotal, types, ...place.metadata }`. -/
def placeCandidateMetadata (place : PlaceResult) : Metadata :=
  objAssign (jsSet (jsSet (jsSet []
    "rating" (optNum place.rating))
    "userRatingsTotal" (optNum place.userRatingsTotal))
    "types" (optStrList place.types)) place.metadata

/-- Conversion of a `PlaceResult` to a candidate in `identifyBuilding`
(step 2b). -/
def placeToCandidate (place : PlaceResult) : BuildingCandidate :=
  { id := none
    externalId := some place.placeId
    name := some place.name
    address := place.address
    coordinates := place.coordinates
    distance := 0
    bearing := 0
    bearingDiff := none
    confidence := 0
    source := .google_places
    metadata := placeCandidateMetadata place }

/-- Conversion of a `GeocodingResult` to a candidate in `identifyBuilding`
(step 2c). -/
def geocodeToCandidate (g : GeocodingResult) : BuildingCandidate :=
  { id := none
    externalId := g.placeId
    name := g.name
    address := g.address
    coordinates := g.coordinates
    distance := 0
    bearing := 0
    bearingDiff := none
    confidence := 0
    source := g.source
    metadata := g.metadata }

/-- JavaScript truthiness of `candidate.name` (`!!candidate.name`): an
absent name and the empty string are both falsy. -/
def jsTruthyName : Option String → Bool
  | none => false
  | some s => !(s == "")

/-- Step 3 of `identifyBuilding`: fill in distance, bearing and (when a
heading was supplied) bearing difference. -/
noncomputable def enrichCandidate (userCoordinates : Coordinates)
    (heading : Option ℝ) (c : BuildingCandidate) : BuildingCandidate :=
  let bearingCalc := calculateBearingAndDistance userCoordinates c.coordinates heading
  { c with
    distance := bearingCalc.distance
    bearing := bearingCalc.bearing
    bearingDiff := bearingCalc.bearingDiff }

/-- Step 4 of `identifyBuilding`: fill in the confidence score.  `hasRating`
is the JavaScript test `candidate.metadata?.rating !== undefined`. -/
noncomputable def scoreCandidate (c : BuildingCandidate) : BuildingCandidate :=
  { c with
    confidence := calculateConfidenceScore
      { distance := c.distance
        bearingDiff := c.bearingDiff
        source := c.source
        hasName := jsTruthyName c.name
        hasRating := some (metaDefined c.metadata "rating") } }

/-- Step 2a + 2b of `identifyBuilding`: building-cache candidates followed
by places candidates, in gathering order. -/
def gatherBase (env : Env) (places : List PlaceResult) : List BuildingCandidate :=
  getCachedBuildings env ++ places.map placeToCandidate

/-- Step 2c of `identifyBuilding`: when fewer than 3 candidates were
gathered, append the reverse-geocoding result (if any) as one more
candidate. -/
def gatherWithFallback (env : Env) (places : List PlaceResult) : List BuildingCandidate :=
  let candidates := gatherBase env places
  if candidates.length < 3 then
    match reverseGeocode env with
    | some g => candidates ++ [geocodeToCandidate g]
    | none => candidates
  else candidates

/-- Steps 2–4 of `identifyBuilding`: gathered candidates, enriched with
geometry, then scored. -/
noncomputable def scoredPipeline (env : Env) (input : IdentifyBuildingInput)
    (places : List PlaceResult) : List BuildingCandidate :=
  ((gatherWithFallback env places).map
    (enrichCandidate { latitude := input.latitude, longitude := input.longitude }
      input.heading)).map scoreCandidate

/-- The comparator of step 5, `(a, b) => b.confidence - a.confidence`, as
the boolean relation of a stable sort that lets `a` stay before `b`. -/
noncomputable def confDescBool (a b : BuildingCandidate) : Bool :=
  decide (b.confidence ≤ a.confidence)

/-- Step 5 of `identifyBuilding`: stable sort by descending confidence
(JavaScript `Array.prototype.sort` is stable). -/
noncomputable def sortedCandidates (env : Env) (input : IdentifyBuildingInput)
    (places : List PlaceResult) : List BuildingCandidate :=
  (scoredPipeline env input places).mergeSort confDescBool

/-- Step 6 of `identifyBuilding`: the candidates persisted to the building
cache — not from cache, confidence above 30, at most the top 5. -/
noncomputable def persistedCandidates (sorted : List BuildingCandidate) :
    List BuildingCandidate :=
  (sorted.filter fun c =>
    decide (c.source ≠ Source.cache) && decide ((30 : ℝ) < c.confidence)).take 5

/-- The external calls a run can perform, in order. -/
inductive CallEvent where
  | resultCacheRead
  | buildingCacheRead
  | placesRead
  | geocodeRead
  | buildingCacheWrite (candidate : BuildingCandidate)
  | resultCacheWrite

/-- Embeds `identifyBuilding` from `database.service.ts` (the identify
orchestrator).  Returns the response (or propagated error) together with the
list of external calls performed.  The outcomes of the fire-and-forget
building-cache writes (`Promise.allSettled`) and of the result-cache write
(caught inside `cacheIdentifyResults`) are discarded, exactly as in the
source. -/
noncomputable def identifyRun (env : Env) (input : IdentifyBuildingInput) :
    Except String IdentifyBuildingResult × List CallEvent :=
  let searchRadius := effectiveSearchRadius input
  let userCoordinates : Coordinates :=
    { latitude := input.latitude, longitude := input.longitude }
  match getCachedIdentifyResults env with
  | some cachedResults =>
    (.ok { candidates := cachedResults, searchRadius := searchRadius,
           searchCenter := userCoordinates, heading := input.heading },
     [.resultCacheRead])
  | none =>
    match env.placesCall with
    | .error e =>
      (.error e, [.resultCacheRead, .buildingCacheRead, .placesRead])
    | .ok nearbyPlaces =>
      let sorted := sortedCandidates env input nearbyPlaces
      let topCandidates := persistedCandidates sorted
      let _settled := topCandidates.map env.buildingSave
      let _resultCached := env.resultCacheSet
      let geoEvents : List CallEvent :=
        if (gatherBase env nearbyPlaces).length < 3 then [.geocodeRead] else []
      (.ok { candidates := sorted, searchRadius := searchRadius,
             searchCenter := userCoordinates, heading := input.heading },
       [.resultCacheRead, .buildingCacheRead, .placesRead] ++ geoEvents ++
         topCandidates.map CallEvent.buildingCacheWrite ++ [.resultCacheWrite])

/-- The candidates written to the building cache during a run, read off the
call log. -/
def writesOf (log : List CallEvent) : List BuildingCandidate :=
  log.filterMap fun e =>
    match e with
    | .buildingCacheWrite c => some c
    | _ => none

theorem writesOf_append (a b : List CallEvent) :
    writesOf (a ++ b) = writesOf a ++ writesOf b :=
  List.filterMap_append a b _

theorem writesOf_map_write (l : List BuildingCandidate) :
    writesOf (l.map CallEvent.buildingCacheWrite) = l := by
  induction l with
  | nil => rfl
  | cons c rest ih =>
    simp only [List.map_cons, writesOf, List.filterMap_cons] at ih ⊢
    rw [ih]

/-! ## Claim C2: a result-cache hit short-circuits the orchestrator -/

/-- Claim C2: when the result cache holds a candidate list for the query
key, `identifyBuilding` returns exactly that list and its only external
call is the result-cache read — no adapter is queried and nothing is
written to any cache. -/
theorem identify_result_cache_hit (env : Env) (input : IdentifyBuildingInput)
    (l : List BuildingCandidate) (h : getCachedIdentifyResults env = some l) :
    identifyRun env input =
      (.ok { candidates := l, searchRadius := effectiveSearchRadius input,
             searchCenter := { latitude := input.latitude, longitude := input.longitude },
             heading := input.heading },
       [.resultCacheRead]) := by
  unfold identifyRun
  rw [h]

/-! ## Claim C1: errors propagate only from the places-adapter call -/

/-- Claim C1: `identifyBuilding` propagates an error if and only if the run
reaches the places-adapter call (result-cache miss) and that call itself
throws; read/write failures of either cache and failures of both geocoding
providers never surface.  In particular, with an empty places response, no
cached buildings and a failing geocoder, it returns an empty candidate list
without throwing. -/
theorem identify_error_only_from_places (env : Env) (input : IdentifyBuildingInput) :
    (∀ e, (identifyRun env input).1 = .error e ↔
      getCachedIdentifyResults env = none ∧ env.placesCall = .error e) ∧
    (getCachedIdentifyResults env = none → env.placesCall = .ok [] →
      getCachedBuildings env = [] → reverseGeocode env = none →
      (identifyRun env input).1 =
        .ok { candidates := [], searchRadius := effectiveSearchRadius input,
              searchCenter := { latitude := input.latitude, longitude := input.longitude },
              heading := input.heading }) := by
  constructor
  · intro e
    unfold identifyRun
    cases hc : getCachedIdentifyResults env with
    | some l => simp
    | none =>
      cases hp : env.placesCall with
      | error e2 => simp
      | ok ps => simp
  · intro h1 h2 h3 h4
    have hsorted : sortedCandidates env input [] = [] := by
      unfold sortedCandidates scoredPipeline gatherWithFallback gatherBase
      rw [h3, h4]
      simp [List.mergeSort]
    simp [identifyRun, h1, h2, hsorted]

/-! ## Claim C4: the returned list is stably sorted by descending confidence -/

theorem confDescBool_trans (a b c : BuildingCandidate)
    (hab : confDescBool a b) (hbc : confDescBool b c) : confDescBool a c := by
  simp only [confDescBool, decide_eq_true_eq] at hab hbc ⊢
  exact le_trans hbc hab

theorem confDescBool_total (a b : BuildingCandidate) :
    confDescBool a b || confDescBool b a := by
  simp only [confDescBool, Bool.or_eq_true, decide_eq_true_eq]
  exact le_total b.confidence a.confidence

/-- Claim C4: on a result-cache miss the returned candidate list is the
stable descending-by-confidence sort of the scored candidates: it is a
permutation of them, pairwise non-increasing in confidence, and any two
candidates with equal confidence keep their gathering order. -/
theorem identify_sorted_stable (env : Env) (input : IdentifyBuildingInput)
    (places : List PlaceResult)
    (h1 : getCachedIdentifyResults env = none)
    (h2 : env.placesCall = .ok places) :
    (identifyRun env input).1 =
      .ok { candidates := sortedCandidates env input places,
            searchRadius := effectiveSearchRadius input,
            searchCenter := { latitude := input.latitude, longitude := input.longitude },
            heading := input.heading } ∧
    (sortedCandidates env input places).Pairwise
      (fun a b => b.confidence ≤ a.confidence) ∧
    (sortedCandidates env input places).Perm (scoredPipeline env input places) ∧
    (∀ a b, List.Sublist [a, b] (scoredPipeline env input places) →
      a.confidence = b.confidence →
      List.Sublist [a, b] (sortedCandidates env input places)) := by
  refine ⟨?_, ?_, ?_, ?_⟩
  · simp [identifyRun, h1, h2]
  · have hs := @List.sorted_mergeSort BuildingCandidate confDescBool
      confDescBool_trans confDescBool_total (scoredPipeline env input places)
    exact hs.imp (fun h => by
      simpa [confDescBool, decide_eq_true_eq] using h)
  · exact List.mergeSort_perm (scoredPipeline env input places) confDescBool
  · intro a b hsub heq
    exact List.pair_sublist_mergeSort confDescBool_trans confDescBool_total
      (by simp [confDescBool, heq]) hsub

/-! ## Claim C5: top-5 persistence, fire-and-forget -/

/-- Claim C5: on a result-cache miss the candidates upserted into the
building cache are exactly the top 5 (of the descending-sorted list) among
those with source ≠ cache and confidence > 30; each written candidate
satisfies the filter, at most 5 are written, and the outcome of the run is
identical whatever the upsert outcomes are (they are fire-and-forget). -/
theorem identify_persist_top5 (env : Env) (input : IdentifyBuildingInput)
    (places : List PlaceResult)
    (h1 : getCachedIdentifyResults env = none)
    (h2 : env.placesCall = .ok places) :
    writesOf (identifyRun env input).2 =
      ((sortedCandidates env input places).filter fun c =>
        decide (c.source ≠ Source.cache) && decide ((30 : ℝ) < c.confidence)).take 5 ∧
    (∀ c ∈ writesOf (identifyRun env input).2,
      c.source ≠ Source.cache ∧ 30 < c.confidence) ∧
    (writesOf (identifyRun env input).2).length ≤ 5 ∧
    (∀ f, identifyRun { env with buildingSave := f } input = identifyRun env input) := by
  have hlog : (identifyRun env input).2 =
      [.resultCacheRead, .buildingCacheRead, .placesRead] ++
        (if (gatherBase env places).length < 3 then [CallEvent.geocodeRead] else []) ++
        (persistedCandidates (sortedCandidates env input places)).map
          CallEvent.buildingCacheWrite ++ [.resultCacheWrite] := by
    simp [identifyRun, h1, h2]
  have hwrites : writesOf (identifyRun env input).2 =
      persistedCandidates (sortedCandidates env input places) := by
    rw [hlog, writesOf_append, writesOf_append, writesOf_append, writesOf_map_write]
    have hpre : writesOf [.resultCacheRead, .buildingCacheRead, .placesRead] = [] := rfl
    have hgeo : writesOf
        (if (gatherBase env places).length < 3 then [CallEvent.geocodeRead] else []) = [] := by
      split <;> rfl
    rw [hpre, hgeo]
    simp [writesOf]
  refine ⟨?_, ?_, ?_, ?_⟩
  · rw [hwrites]
    rfl
  · intro c hc
    rw [hwrites] at hc
    have hc2 : c ∈ (sortedCandidates env input places).filter fun c =>
        decide (c.source ≠ Source.cache) && decide ((30 : ℝ) < c.confidence) :=
      List.take_subset 5 _ hc
    have := List.of_mem_filter hc2
    simpa [decide_eq_true_eq] using this
  · rw [hwrites]
    unfold persistedCandidates
    exact le_trans (List.length_take_le 5 _) le_rfl
  · intro f
    rfl

/-! ## Claim C6: the geocoding fallback fires exactly below 3 candidates -/

/-- Claim C6: during gathering, the geocoding adapter is called if and only
if the building-cache and places candidates together number fewer than 3;
it adds at most one candidate (none when it returns null), and when it is
not called the gathered set is exactly the building-cache and places
candidates. -/
theorem identify_geocode_fallback_iff (env : Env) (input : IdentifyBuildingInput)
    (places : List PlaceResult)
    (h1 : getCachedIdentifyResults env = none)
    (h2 : env.placesCall = .ok places) :
    (CallEvent.geocodeRead ∈ (identifyRun env input).2 ↔
      (gatherBase env places).length < 3) ∧
    (¬ (gatherBase env places).length < 3 →
      gatherWithFallback env places = gatherBase env places) ∧
    ((gatherBase env places).length < 3 → reverseGeocode env = none →
      gatherWithFallback env places = gatherBase env places) ∧
    ((gatherBase env places).length < 3 → ∀ g, reverseGeocode env = some g →
      gatherWithFallback env places = gatherBase env places ++ [geocodeToCandidate g]) := by
  refine ⟨?_, ?_, ?_, ?_⟩
  · by_cases hc : (gatherBase env places).length < 3 <;>
      simp [identifyRun, h1, h2, hc]
  · intro h
    unfold gatherWithFallback
    rw [if_neg h]
  · intro h hg
    unfold gatherWithFallback
    rw [if_pos h, hg]
  · intro h g hg
    unfold gatherWithFallback
    rw [if_pos h, hg]

/-! ## Concrete runs used as witnesses -/

/-- A places result used in witnesses. -/
def placeA : PlaceResult :=
  { placeId := "pa"
    name := "Cafe"
    address := "3 Main St"
    coordinates := { latitude := 37.775, longitude := -122.419 }
    rating := some 4.2
    userRatingsTotal := some 10
    types := some ["establishment"]
    vicinity := none
    metadata := [] }

/-- Result-cache miss, empty building cache, empty places response, both
geocoding providers failing, failing building-cache writes. -/
def envMissEmpty : Env :=
  { resultCacheGet := .ok none
    dbFindNear := .ok []
    placesCall := .ok []
    geoRedisGet := .ok none
    geoGoogle := .error "google geocoding request failed"
    geoNominatim := .error "nominatim request failed"
    geoRedisSet := .ok ()
    buildingSave := fun _ => .error "upsert failed"
    resultCacheSet := .ok () }

/-- Like `envMissEmpty` but with one places result. -/
def envWithPlace : Env := { envMissEmpty with placesCall := .ok [placeA] }

/-- A pre-scored candidate stored in the result cache. -/
def storedCandidate : BuildingCandidate :=
  { id := some "b1"
    externalId := none
    name := some "Old Hall"
    address := "4 Main St"
    coordinates := { latitude := 37.0, longitude := -122.0 }
    distance := 12
    bearing := 45
    bearingDiff := none
    confidence := 77
    source := .cache
    metadata := [] }

/-- Result-cache hit environment. -/
def envHit : Env := { envMissEmpty with resultCacheGet := .ok (some [storedCandidate]) }

/-- The query of spec §8 scenario 10. -/
def inputSF : IdentifyBuildingInput :=
  { latitude := 37.7749
    longitude := -122.4194
    heading := some 270
    searchRadius := some 500 }

theorem identify_error_only_from_places_witness :
    (identifyRun envMissEmpty inputSF).1 =
      .ok { candidates := [], searchRadius := effectiveSearchRadius inputSF,
            searchCenter := { latitude := inputSF.latitude, longitude := inputSF.longitude },
            heading := inputSF.heading } :=
  (identify_error_only_from_places envMissEmpty inputSF).2 rfl rfl rfl rfl

theorem identify_result_cache_hit_witness :
    identifyRun envHit inputSF =
      (.ok { candidates := [storedCandidate],
             searchRadius := effectiveSearchRadius inputSF,
             searchCenter := { latitude := inputSF.latitude, longitude := inputSF.longitude },
             heading := inputSF.heading },
       [.resultCacheRead]) :=
  identify_result_cache_hit envHit inputSF [storedCandidate] rfl

theorem identify_sorted_stable_witness :
    (sortedCandidates envWithPlace inputSF [placeA]).Pairwise
      (fun a b => b.confidence ≤ a.confidence) :=
  (identify_sorted_stable envWithPlace inputSF [placeA] rfl rfl).2.1

theorem identify_persist_top5_witness :
    (writesOf (identifyRun envWithPlace inputSF).2).length ≤ 5 ∧
    (∀ f, identifyRun { envWithPlace with buildingSave := f } inputSF =
      identifyRun envWithPlace inputSF) :=
  ⟨(identify_persist_top5 envWithPlace inputSF [placeA] rfl rfl).2.2.1,
   (identify_persist_top5 envWithPlace inputSF [placeA] rfl rfl).2.2.2⟩

theorem identify_geocode_fallback_iff_witness :
    CallEvent.geocodeRead ∈ (identifyRun envWithPlace inputSF).2 ↔
      (gatherBase envWithPlace [placeA]).length < 3 :=
  (identify_geocode_fallback_iff envWithPlace inputSF [placeA] rfl rfl).1
